import Mathlib

/-!
Shallow embedding of the HAventory frontend store
(`src/cards/haventory-card/src/store/store.ts` together with the model types in
`src/cards/haventory-card/src/store/types.ts` and the default sort in `sort.ts`).

The store is a single-threaded, event-loop-driven cache reconciler.  Each
`async` method of the TypeScript `Store` class is split here into its
synchronous prefix (everything executed before the first `await`) and the
continuation that runs when the awaited WebSocket call settles; the server
outcome is passed in as an `Except WsError _` value.  `Date.now()`-derived
operation ids and the random error-entry ids are nondeterministic at runtime
and are therefore taken as parameters.

State fields of `StoreState` that none of the modelled operations read or
write in an item-cache-relevant way (`selection`, `areasCache`,
`locationTreeCache`, `locationsFlatCache`, `statsCounts`, the `stats` and
`locations` subscriptions and the `connected` flags) are omitted from the
state record; everything the listing, mutation, event-merge, error-queue and
in-flight-deduplication paths touch is modelled.
-/

namespace HAV

/-- `LocationPath` from types.ts. -/
structure LocationPath where
  id_path : List String
  name_path : List String
  display_path : String
  sort_key : String
deriving DecidableEq

/-- `ScalarValue = string | number | boolean` from types.ts.  The TS `number`
is modelled as `Int`; the store performs no arithmetic on custom-field
values, so the numeric representation is irrelevant to every claim. -/
inductive ScalarValue where
  | str (s : String)
  | num (n : Int)
  | bool (b : Bool)
deriving DecidableEq

/-- `Item` from types.ts.  `quantity` is `Int` (the TS `number`; quantities
are adjusted by possibly negative deltas).  `tags` is declared `string[]` on
the `Item` interface, but `ItemUpdate.tags` admits `null` and the spread in
`Store.updateItem` writes it through unchecked, so the runtime cache object
can hold `null` there; the field is therefore modelled as an `Option`
(server snapshots always carry `some`). -/
structure Item where
  id : String
  name : String
  description : Option String
  quantity : Int
  checked_out : Bool
  due_date : Option String
  location_id : Option String
  tags : Option (List String)
  category : Option String
  low_stock_threshold : Option Int
  custom_fields : List (String × ScalarValue)
  created_at : String
  updated_at : String
  version : Nat
  location_path : LocationPath
deriving DecidableEq

/-- `ItemUpdate` from types.ts: every field optional; the nullable ones are
two-level options (`none` = absent, `some none` = explicit `null`). -/
structure ItemUpdate where
  name : Option String := none
  description : Option (Option String) := none
  quantity : Option Int := none
  checked_out : Option Bool := none
  due_date : Option (Option String) := none
  location_id : Option (Option String) := none
  tags : Option (Option (List String)) := none
  category : Option (Option String) := none
  low_stock_threshold : Option (Option Int) := none
  custom_fields_set : Option (List (String × ScalarValue)) := none
  custom_fields_unset : Option (List String) := none
deriving DecidableEq

/-- `SortField` from types.ts. -/
inductive SortField where
  | updated_at | created_at | name | quantity
deriving DecidableEq

/-- `SortOrder` from types.ts. -/
inductive SortOrder where
  | asc | desc
deriving DecidableEq

/-- `Sort` from types.ts (named `ItemSort` here because `Sort` is a Lean
keyword). -/
structure ItemSort where
  field : SortField
  order : SortOrder
deriving DecidableEq

/-- `DEFAULT_SORT` from sort.ts: `{ field: 'updated_at', order: 'desc' }`. -/
def DEFAULT_SORT : ItemSort := { field := SortField.updated_at, order := SortOrder.desc }

/-- The `ItemFilter` object as constructed by `Store.listItems`
(store.ts:175-183).  Only the fields the store ever sets are present; the
remaining declared fields of the `ItemFilter` interface are never set by the
store and, being `undefined`, are omitted from the `JSON.stringify` key, so
they cannot distinguish two keys. -/
structure ItemFilter where
  q : Option String
  area_id : Option String
  location_id : Option String
  include_subtree : Bool
  checked_out : Option Bool
  low_stock_first : Option Bool
deriving DecidableEq

/-- `ListItemsResult` from types.ts. -/
structure ListItemsResult where
  items : List Item
  next_cursor : Option String
deriving DecidableEq

/-- `StoreFilters` from types.ts. -/
structure StoreFilters where
  q : String
  areaId : Option String
  locationId : Option String
  includeSubtree : Bool
  checkedOutOnly : Bool
  lowStockFirst : Bool
  sort : ItemSort
deriving DecidableEq

/-- `Partial<StoreFilters>`, the argument of `Store.setFilters`. -/
structure FiltersPatch where
  q : Option String := none
  areaId : Option (Option String) := none
  locationId : Option (Option String) := none
  includeSubtree : Option Bool := none
  checkedOutOnly : Option Bool := none
  lowStockFirst : Option Bool := none
  sort : Option ItemSort := none
deriving DecidableEq

/-- The error envelope Home Assistant's `callWS` rejects with, as read by
`Store.pushError` (store.ts:361-366).  The fields are already coerced to
strings; `none` stands for an absent (`undefined`) field. -/
structure WsError where
  code : Option String
  message : Option String
  context : Option String
  data : Option String
deriving DecidableEq

/-- The `kind` discriminator of an error-queue entry. -/
inductive ErrKind where
  | conflict | error
deriving DecidableEq

/-- `ErrorEntry` from types.ts, as constructed by `Store.pushError`. -/
structure ErrorEntry where
  id : String
  code : String
  message : String
  context : Option String
  kind : ErrKind
  itemId : Option String
  changes : Option ItemUpdate
deriving DecidableEq

/-- The pending-operation record `{ kind, itemId? }` stored in
`StoreState.pendingOps`. -/
structure PendingOp where
  kind : String
  itemId : Option String
deriving DecidableEq

/-- The arguments `Store.subscribeTopics` passes for the `items` topic
subscription (store.ts:100-103). -/
structure ItemsSubArgs where
  location_id : Option String
  include_subtree : Bool
deriving DecidableEq

/-- The composite de-duplication key of a list request
(store.ts:189: `JSON.stringify({ op: 'list', filter, sort, limit, cursor })`).
`JSON.stringify` omits `undefined` fields and the object-literal field order
is fixed, so two keys are equal as strings exactly when these records are
equal. -/
structure ListKey where
  filter : ItemFilter
  sort : ItemSort
  limit : Nat
  cursor : Option String
deriving DecidableEq

/-- JavaScript `Array.prototype.findIndex` on a list: the index of the first
element satisfying `p` (`none` models the `-1` result). -/
def findIndex {α : Type} (p : α → Bool) : List α → Option Nat
  | [] => none
  | x :: xs => if p x then some 0 else (findIndex p xs).map (fun i => i + 1)

/-- JavaScript `Map.set` on an insertion-ordered association list: updating
an existing key keeps its position, a new key is appended. -/
def mapSet {κ α : Type} [BEq κ] (m : List (κ × α)) (k : κ) (v : α) : List (κ × α) :=
  if m.any (fun p => p.1 == k) then m.map (fun p => if p.1 == k then (k, v) else p)
  else m ++ [(k, v)]

/-- JavaScript `Map.get`. -/
def mapGet {κ α : Type} [BEq κ] (m : List (κ × α)) (k : κ) : Option α :=
  (m.find? (fun p => p.1 == k)).map (fun p => p.2)

/-- JavaScript `Map.delete`. -/
def mapDelete {κ α : Type} [BEq κ] (m : List (κ × α)) (k : κ) : List (κ × α) :=
  m.filter (fun p => !(p.1 == k))

/-- The mutable part of the client store that the modelled operations touch
(see the module comment for the omitted fields).  `inflight` maps list-keys
of outstanding `ws.listItems` calls to an identifier of the pending promise;
`sent` is a ghost log of the WebSocket list requests actually issued, used to
state "no redundant request goes out". -/
structure StoreState where
  items : List Item
  cursor : Option String
  filters : StoreFilters
  pendingOps : List (String × PendingOp)
  errorQueue : List ErrorEntry
  itemsSub : Option ItemsSubArgs
  inflight : List (ListKey × Nat)
  sent : List ListKey
deriving DecidableEq

/-- The actions of an `items`-topic push event (types.ts
`ItemsEventPayload`). -/
inductive ItemsAction where
  | created | updated | moved | deleted | checked_out | checked_in | quantity_changed
deriving DecidableEq

namespace Store

/-- Shared core of `Store.applyOptimistic` (store.ts:395-400) and of the
upsert branch of `Store.onItemsEvent` (store.ts:117-127), which run the same
code: `findIndex` by id, replace in place when found, `unshift` when
absent. -/
def upsertById (l : List Item) (item : Item) : List Item :=
  match findIndex (fun x => x.id == item.id) l with
  | some i => l.set i item
  | none => item :: l

/-- `Store.applyOptimistic` (store.ts:395-400). -/
def applyOptimistic (s : StoreState) (item : Item) : StoreState :=
  { s with items := upsertById s.items item }

/-- `Store.removeById` (store.ts:402-405). -/
def removeById (s : StoreState) (itemId : String) : StoreState :=
  { s with items := s.items.filter (fun x => x.id != itemId) }

/-- The `deleted` branch of `Store.onItemsEvent` (store.ts:129-131):
`findIndex` by id, `splice(idx, 1)` when found. -/
def removeFirstById (l : List Item) (id : String) : List Item :=
  match findIndex (fun x => x.id == id) l with
  | some i => l.eraseIdx i
  | none => l

/-- `Store.onItemsEvent` (store.ts:114-135), already narrowed to the `items`
topic (the method returns immediately on any other topic). -/
def onItemsEvent (s : StoreState) (action : ItemsAction) (item : Item) : StoreState :=
  match action with
  | ItemsAction.deleted => { s with items := removeFirstById s.items item.id }
  | _ => { s with items := upsertById s.items item }

/-- The id-keyed `Map` built by `mergeUniqueById` (store.ts:409-411): keys
set for `existing` then for `incoming`, so a lookup returns the last element
of `existing ++ incoming` with the given id. -/
def lastWithId (l : List Item) (id : String) : Option Item :=
  (l.reverse).find? (fun it => it.id == id)

/-- `mergeUniqueById` (store.ts:408-415): keep the order of `existing`, each
entry replaced by the map value for its id (never `none`: the id was set
while iterating `existing`), then append the incoming items whose id is not
already present. -/
def mergeUniqueById (existing incoming : List Item) : List Item :=
  let incomingOnly := incoming.filter (fun i => !(existing.any (fun e => e.id == i.id)))
  (existing.filterMap (fun e => lastWithId (existing ++ incoming) e.id)) ++ incomingOnly

/-- The `ItemFilter` built from the active filters at the top of
`Store.listItems` (store.ts:175-183).  `||` maps every falsy value (empty
string, `false`, `null`) to `undefined`; `??` maps only `null`/`undefined`. -/
def filterOfFilters (f : StoreFilters) : ItemFilter :=
  { q := if f.q == "" then none else some f.q
    area_id := match f.areaId with
      | some a => if a == "" then none else some a
      | none => none
    location_id := f.locationId
    include_subtree := f.includeSubtree
    checked_out := if f.checkedOutOnly then some true else none
    low_stock_first := if f.lowStockFirst then some true else none }

/-- The de-duplication key a `Store.listItems(reset)` call computes from the
current state (store.ts:184-189); `limit` is the constant 50 and the cursor
is `undefined` on reset, else `st.cursor || undefined`. -/
def listItemsKey (s : StoreState) (reset : Bool) : ListKey :=
  { filter := filterOfFilters s.filters
    sort := s.filters.sort
    limit := 50
    cursor := if reset then none
      else match s.cursor with
        | some c => if c == "" then none else some c
        | none => none }

/-- The synchronous part of `Store.listItems` (store.ts:188-201): if an
identical request is in flight, return its pending promise id and leave the
state untouched; otherwise register the key, log the outgoing WebSocket
request in `sent`, and return the fresh promise id. -/
def listItemsRequest (s : StoreState) (reset : Bool) (freshPid : Nat) : StoreState × Nat :=
  let key := listItemsKey s reset
  match mapGet s.inflight key with
  | some pid => (s, pid)
  | none =>
    ({ s with inflight := mapSet s.inflight key freshPid, sent := s.sent ++ [key] }, freshPid)

/-- The `.then` continuation of `Store.listItems` (store.ts:194-198) plus the
`.finally` cleanup: `s` is the state at the time the response is processed
(the TypeScript closure reads `st.items` through the live state object), the
merged page and cursor are written, and the in-flight entry is removed. -/
def listItemsComplete (s : StoreState) (reset : Bool) (key : ListKey) (res : ListItemsResult) :
    StoreState :=
  { s with
    items := if reset then res.items else mergeUniqueById s.items res.items
    cursor := res.next_cursor
    inflight := mapDelete s.inflight key }

/-- The `.finally` cleanup alone, run when the WebSocket list call rejects. -/
def listItemsFail (s : StoreState) (key : ListKey) : StoreState :=
  { s with inflight := mapDelete s.inflight key }

/-- `Store.subscribeTopics` restricted to the modelled state: the `items`
subscription is re-issued with the current filters' location scope
(store.ts:97-103). -/
def subscribeTopics (s : StoreState) : StoreState :=
  { s with itemsSub := some ⟨s.filters.locationId, s.filters.includeSubtree⟩ }

/-- The spread `{ ...this.state.value.filters, ...patch }` in
`Store.setFilters` (store.ts:213). -/
def applyFiltersPatch (f : StoreFilters) (p : FiltersPatch) : StoreFilters :=
  { q := p.q.getD f.q
    areaId := match p.areaId with | some v => v | none => f.areaId
    locationId := match p.locationId with | some v => v | none => f.locationId
    includeSubtree := p.includeSubtree.getD f.includeSubtree
    checkedOutOnly := p.checkedOutOnly.getD f.checkedOutOnly
    lowStockFirst := p.lowStockFirst.getD f.lowStockFirst
    sort := p.sort.getD f.sort }

/-- `Store.setFilters` (store.ts:212-219): apply the patch, clear cursor and
items, resubscribe with the new scope, then start a reset list request
(`freshPid` identifies the promise the request would create). -/
def setFilters (s : StoreState) (patch : FiltersPatch) (freshPid : Nat) : StoreState × Nat :=
  let next := applyFiltersPatch s.filters patch
  let s1 := { s with filters := next, cursor := none, items := [] }
  let s2 := subscribeTopics s1
  listItemsRequest s2 true freshPid

/-- The structured entry `Store.pushError` builds (store.ts:363-375), as a
function of the error envelope, the generated entry id and the optional
details. -/
def errEntry (err : WsError) (genId : String) (itemId : Option String)
    (changes : Option ItemUpdate) : ErrorEntry :=
  { id := genId
    code := err.code.getD "unknown_error"
    message := err.message.getD "Unknown error"
    context := err.context.or err.data
    kind := if err.code.getD "unknown_error" == "conflict" then ErrKind.conflict
      else ErrKind.error
    itemId := itemId
    changes := changes }

/-- `Store.pushError` (store.ts:361-378).  `genId` stands for the
timestamp-and-random entry id generated at line 368. -/
def pushError (s : StoreState) (err : WsError) (genId : String)
    (itemId : Option String) (changes : Option ItemUpdate) : StoreState :=
  let code := err.code.getD "unknown_error"
  let message := err.message.getD "Unknown error"
  let context := err.context.or err.data
  let entry : ErrorEntry :=
    { id := genId
      code := code
      message := message
      context := context
      kind := if code == "conflict" then ErrKind.conflict else ErrKind.error
      itemId := itemId
      changes := changes }
  { s with errorQueue := s.errorQueue ++ [entry] }

/-- `Store.dismissError` (store.ts:380-383). -/
def dismissError (s : StoreState) (id : String) : StoreState :=
  { s with errorQueue := s.errorQueue.filter (fun e => e.id != id) }

/-- The spread `{ ...before, ...changes }` computing the speculative item in
`Store.updateItem` (store.ts:243): a field present in `changes` overwrites
(an explicit `null` clears), an absent field keeps the previous value.  The
`custom_fields_set` / `custom_fields_unset` keys of `ItemUpdate` are not
fields of `Item`; the spread adds them as extraneous object keys that shadow
nothing, so they do not appear here. -/
def spreadUpdate (before : Item) (c : ItemUpdate) : Item :=
  { before with
    name := c.name.getD before.name
    description := match c.description with | some v => v | none => before.description
    quantity := c.quantity.getD before.quantity
    checked_out := c.checked_out.getD before.checked_out
    due_date := match c.due_date with | some v => v | none => before.due_date
    location_id := match c.location_id with | some v => v | none => before.location_id
    tags := match c.tags with | some v => v | none => before.tags
    category := match c.category with | some v => v | none => before.category
    low_stock_threshold := match c.low_stock_threshold with
      | some v => v
      | none => before.low_stock_threshold }

/-- Synchronous prefix of `Store.createItem` (store.ts:222-224): only the
pending-operation marker is recorded; the cached items list is not touched
before the awaited `ws.createItem` call. -/
def createItemStart (s : StoreState) (opId : String) : StoreState :=
  { s with pendingOps := mapSet s.pendingOps opId { kind := "create", itemId := none } }

/-- `Store.createItem` (store.ts:222-236) run to completion with server
outcome `resp`: on success the server-created item is merged into the items
list read at response time; on failure the error is queued; the pending
operation is removed either way. -/
def createItem (s : StoreState) (opId : String) (resp : Except WsError Item) (errId : String) :
    StoreState :=
  let s1 := createItemStart s opId
  let s2 := match resp with
    | Except.ok created => { s1 with items := mergeUniqueById s1.items [created] }
    | Except.error err => pushError s1 err errId none none
  { s2 with pendingOps := mapDelete s2.pendingOps opId }

/-- Synchronous prefix of `Store.updateItem` (store.ts:238-245): record the
pending operation, snapshot `before`, and apply the speculative spread patch
when the item is cached. -/
def updateItemStart (s : StoreState) (itemId : String) (changes : ItemUpdate) (opId : String) :
    StoreState :=
  let s0 := { s with pendingOps := mapSet s.pendingOps opId ⟨"update", some itemId⟩ }
  match s0.items.find? (fun i => i.id == itemId) with
  | some b => applyOptimistic s0 (spreadUpdate b changes)
  | none => s0

/-- `Store.updateItem` (store.ts:238-257) run to completion with server
outcome `resp`: reconcile with the server snapshot on success; on failure
queue a structured error carrying the item id and the intended changes, then
roll back to the `before` snapshot. -/
def updateItem (s : StoreState) (itemId : String) (changes : ItemUpdate) (opId : String)
    (resp : Except WsError Item) (errId : String) : StoreState :=
  let before := s.items.find? (fun i => i.id == itemId)
  let s1 := updateItemStart s itemId changes opId
  let s2 := match resp with
    | Except.ok updated => applyOptimistic s1 updated
    | Except.error err =>
      let sE := pushError s1 err errId (some itemId) (some changes)
      match before with
      | some b => applyOptimistic sE b
      | none => sE
  { s2 with pendingOps := mapDelete s2.pendingOps opId }

/-- Synchronous prefix of `Store.deleteItem` (store.ts:259-263): record the
pending operation and remove the item from the cache when present. -/
def deleteItemStart (s : StoreState) (itemId : String) (opId : String) : StoreState :=
  let s0 := { s with pendingOps := mapSet s.pendingOps opId ⟨"delete", some itemId⟩ }
  match s0.items.find? (fun i => i.id == itemId) with
  | some _ => removeById s0 itemId
  | none => s0

/-- `Store.deleteItem` (store.ts:259-274) run to completion with server
outcome `resp`: on failure the error is queued and the `before` snapshot is
re-applied through `applyOptimistic`. -/
def deleteItem (s : StoreState) (itemId : String) (opId : String)
    (resp : Except WsError Unit) (errId : String) : StoreState :=
  let before := s.items.find? (fun i => i.id == itemId)
  let s1 := deleteItemStart s itemId opId
  let s2 := match resp with
    | Except.ok _ => s1
    | Except.error err =>
      let sE := pushError s1 err errId none none
      match before with
      | some b => applyOptimistic sE b
      | none => sE
  { s2 with pendingOps := mapDelete s2.pendingOps opId }

/-- Common shape of the simple optimistic writes `adjustQuantity`,
`setQuantity`, `checkOut`, `markCheckedIn`, `setLowStockThreshold` and
`moveItem` (store.ts:276-346): speculative patch of the cached item, remote
call, reconcile on success, queue error (without item context) and roll back
on failure.  This is the synchronous prefix. -/
def optimisticOpStart (s : StoreState) (itemId : String) (patch : Item → Item) : StoreState :=
  match s.items.find? (fun i => i.id == itemId) with
  | some b => applyOptimistic s (patch b)
  | none => s

/-- The full run of a simple optimistic write (see `optimisticOpStart`). -/
def optimisticOp (s : StoreState) (itemId : String) (patch : Item → Item)
    (resp : Except WsError Item) (errId : String) : StoreState :=
  let before := s.items.find? (fun i => i.id == itemId)
  let s1 := optimisticOpStart s itemId patch
  match resp with
  | Except.ok updated => applyOptimistic s1 updated
  | Except.error err =>
    let sE := pushError s1 err errId none none
    match before with
    | some b => applyOptimistic sE b
    | none => sE

/-- The speculative patch of `Store.checkOut` (store.ts:302):
`{ ...before, checked_out: true, due_date: dueDate ?? before.due_date }`.
`dueDate` is `string | null | undefined`; `??` falls back to the previous
value on both `null` and `undefined`. -/
def checkOutPatch (dueDate : Option (Option String)) (b : Item) : Item :=
  { b with
    checked_out := true
    due_date := match dueDate with
      | some (some d) => some d
      | _ => b.due_date }

/-- The speculative patch of `Store.markCheckedIn` (store.ts:314). -/
def checkedInPatch (b : Item) : Item :=
  { b with checked_out := false }

/-- Synchronous prefix of `Store.checkOut` (store.ts:300-302). -/
def checkOutStart (s : StoreState) (itemId : String) (dueDate : Option (Option String)) :
    StoreState :=
  optimisticOpStart s itemId (checkOutPatch dueDate)

/-- `Store.checkOut` (store.ts:300-310) run to completion. -/
def checkOut (s : StoreState) (itemId : String) (dueDate : Option (Option String))
    (resp : Except WsError Item) (errId : String) : StoreState :=
  optimisticOp s itemId (checkOutPatch dueDate) resp errId

/-- Synchronous prefix of `Store.markCheckedIn` (store.ts:312-314). -/
def markCheckedInStart (s : StoreState) (itemId : String) : StoreState :=
  optimisticOpStart s itemId checkedInPatch

/-- `Store.markCheckedIn` (store.ts:312-322) run to completion. -/
def markCheckedIn (s : StoreState) (itemId : String)
    (resp : Except WsError Item) (errId : String) : StoreState :=
  optimisticOp s itemId checkedInPatch resp errId

/-- `Store.adjustQuantity` (store.ts:276-286) run to completion. -/
def adjustQuantity (s : StoreState) (itemId : String) (delta : Int)
    (resp : Except WsError Item) (errId : String) : StoreState :=
  optimisticOp s itemId (fun b => { b with quantity := b.quantity + delta }) resp errId

/-- `Store.setQuantity` (store.ts:288-298) run to completion. -/
def setQuantity (s : StoreState) (itemId : String) (q : Int)
    (resp : Except WsError Item) (errId : String) : StoreState :=
  optimisticOp s itemId (fun b => { b with quantity := q }) resp errId

/-- `Store.setLowStockThreshold` (store.ts:324-334) run to completion. -/
def setLowStockThreshold (s : StoreState) (itemId : String) (t : Option Int)
    (resp : Except WsError Item) (errId : String) : StoreState :=
  optimisticOp s itemId (fun b => { b with low_stock_threshold := t }) resp errId

/-- `Store.moveItem` (store.ts:336-346) run to completion. -/
def moveItem (s : StoreState) (itemId : String) (locId : Option String)
    (resp : Except WsError Item) (errId : String) : StoreState :=
  optimisticOp s itemId (fun b => { b with location_id := locId }) resp errId

/-- `Store.refreshItem` (store.ts:385-392) run to completion. -/
def refreshItem (s : StoreState) (resp : Except WsError Item) (errId : String) : StoreState :=
  match resp with
  | Except.ok latest => applyOptimistic s latest
  | Except.error err => pushError s err errId none none

end Store

/-- One completed public store operation, for stating cache invariants over
everything the store can do to its state. -/
inductive StoreOp where
  | listComplete (reset : Bool) (key : ListKey) (res : ListItemsResult)
  | listRequest (reset : Bool) (freshPid : Nat)
  | listFail (key : ListKey)
  | setFiltersOp (patch : FiltersPatch) (freshPid : Nat)
  | subscribeOp
  | createOp (opId : String) (resp : Except WsError Item) (errId : String)
  | updateOp (itemId : String) (changes : ItemUpdate) (opId : String)
      (resp : Except WsError Item) (errId : String)
  | deleteOp (itemId : String) (opId : String) (resp : Except WsError Unit) (errId : String)
  | eventOp (action : ItemsAction) (item : Item)
  | checkOutOp (itemId : String) (dueDate : Option (Option String))
      (resp : Except WsError Item) (errId : String)
  | markCheckedInOp (itemId : String) (resp : Except WsError Item) (errId : String)
  | adjustQuantityOp (itemId : String) (delta : Int) (resp : Except WsError Item) (errId : String)
  | setQuantityOp (itemId : String) (q : Int) (resp : Except WsError Item) (errId : String)
  | setLowStockThresholdOp (itemId : String) (t : Option Int)
      (resp : Except WsError Item) (errId : String)
  | moveItemOp (itemId : String) (locId : Option String)
      (resp : Except WsError Item) (errId : String)
  | refreshItemOp (resp : Except WsError Item) (errId : String)
  | dismissErrorOp (id : String)

/-- Interpretation of a `StoreOp` as a state transformer. -/
def applyOp (s : StoreState) : StoreOp → StoreState
  | StoreOp.listComplete reset key res => Store.listItemsComplete s reset key res
  | StoreOp.listRequest reset freshPid => (Store.listItemsRequest s reset freshPid).1
  | StoreOp.listFail key => Store.listItemsFail s key
  | StoreOp.setFiltersOp patch freshPid => (Store.setFilters s patch freshPid).1
  | StoreOp.subscribeOp => Store.subscribeTopics s
  | StoreOp.createOp opId resp errId => Store.createItem s opId resp errId
  | StoreOp.updateOp itemId changes opId resp errId =>
      Store.updateItem s itemId changes opId resp errId
  | StoreOp.deleteOp itemId opId resp errId => Store.deleteItem s itemId opId resp errId
  | StoreOp.eventOp action item => Store.onItemsEvent s action item
  | StoreOp.checkOutOp itemId dueDate resp errId => Store.checkOut s itemId dueDate resp errId
  | StoreOp.markCheckedInOp itemId resp errId => Store.markCheckedIn s itemId resp errId
  | StoreOp.adjustQuantityOp itemId delta resp errId =>
      Store.adjustQuantity s itemId delta resp errId
  | StoreOp.setQuantityOp itemId q resp errId => Store.setQuantity s itemId q resp errId
  | StoreOp.setLowStockThresholdOp itemId t resp errId =>
      Store.setLowStockThreshold s itemId t resp errId
  | StoreOp.moveItemOp itemId locId resp errId => Store.moveItem s itemId locId resp errId
  | StoreOp.refreshItemOp resp errId => Store.refreshItem s resp errId
  | StoreOp.dismissErrorOp id => Store.dismissError s id

/-- Side condition for an operation: a server page delivered by a list
response carries pairwise distinct ids (the backend pages a keyed
collection).  All other operations need no assumption. -/
def opPageNodup : StoreOp → Prop
  | StoreOp.listComplete _ _ res => (res.items.map Item.id).Nodup
  | _ => True

/-- An empty location path, for concrete demonstration items. -/
def path0 : LocationPath := { id_path := [], name_path := [], display_path := "", sort_key := "" }

/-- A concrete item with id `a`. -/
def itemA : Item :=
  { id := "a", name := "A", description := none, quantity := 1, checked_out := false,
    due_date := none, location_id := none, tags := some [], category := none,
    low_stock_threshold := none, custom_fields := [], created_at := "t0", updated_at := "t0",
    version := 1, location_path := path0 }

/-- A concrete item with id `b` that carries a due date. -/
def itemB : Item := { itemA with id := "b", name := "B", due_date := some "2026-01-01" }

/-- A concrete item with id `c`. -/
def itemC : Item := { itemA with id := "c", name := "C" }

/-- The store's initial filters (store.ts:60-68). -/
def demoFilters : StoreFilters :=
  { q := "", areaId := none, locationId := none, includeSubtree := true,
    checkedOutOnly := false, lowStockFirst := false, sort := DEFAULT_SORT }

/-- A concrete store state caching `itemA` and `itemB`. -/
def demoAB : StoreState :=
  { items := [itemA, itemB], cursor := none, filters := demoFilters, pendingOps := [],
    errorQueue := [], itemsSub := none, inflight := [], sent := [] }

/-- A concrete store state with an empty cache. -/
def demoEmpty : StoreState := { demoAB with items := [] }

/-- A concrete Conflict error envelope. -/
def conflictErr : WsError :=
  { code := some "conflict", message := some "Conflict", context := none, data := none }

/-- Unfolding equation of `findIndex` on a cons cell. -/
theorem findIndex_cons {α : Type} (p : α → Bool) (x : α) (xs : List α) :
    findIndex p (x :: xs) = if p x then some 0 else (findIndex p xs).map (fun i => i + 1) :=
  rfl

/-- `findIndex` finds nothing exactly when no element satisfies the
predicate. -/
theorem findIndex_eq_none_iff {α : Type} (p : α → Bool) (l : List α) :
    findIndex p l = none ↔ ∀ x ∈ l, p x = false := by
  induction l with
  | nil => simp [findIndex]
  | cons x xs ih =>
    cases hx : p x with
    | true => simp [findIndex, hx]
    | false => simp [findIndex, hx, Option.map_eq_none', ih]

/-- A member satisfying the predicate forces `findIndex` to return an
index. -/
theorem findIndex_some_of_mem {α : Type} (p : α → Bool) {x : α} {l : List α}
    (hm : x ∈ l) (hp : p x = true) : ∃ j, findIndex p l = some j := by
  induction l with
  | nil => cases hm
  | cons y ys ih =>
    cases hy : p y with
    | true => exact ⟨0, by simp [findIndex, hy]⟩
    | false =>
      rcases List.mem_cons.mp hm with rfl | hm2
      · simp [hp] at hy
      · obtain ⟨j, hj⟩ := ih hm2
        exact ⟨j + 1, by simp [findIndex_cons, hy, hj]⟩

/-- `find?` returns the head of the filtered list. -/
theorem find?_eq_head?_filter {α : Type} (p : α → Bool) (l : List α) :
    l.find? p = (l.filter p).head? := by
  induction l with
  | nil => rfl
  | cons x xs ih =>
    cases hx : p x with
    | true => rw [List.find?_cons_of_pos _ hx, List.filter_cons_of_pos hx, List.head?_cons]
    | false =>
      rw [List.find?_cons_of_neg _ (by simp [hx]), List.filter_cons_of_neg (by simp [hx]), ih]

/-- `find?` over a cons with a matching head, with the predicate explicit so
rewriting is deterministic. -/
theorem find?_cons_pos {α : Type} (p : α → Bool) (x : α) (xs : List α) (hx : p x = true) :
    (x :: xs).find? p = some x :=
  List.find?_cons_of_pos xs hx

/-- `find?` over a cons with a non-matching head. -/
theorem find?_cons_neg {α : Type} (p : α → Bool) (x : α) (xs : List α) (hx : p x = false) :
    (x :: xs).find? p = xs.find? p :=
  List.find?_cons_of_neg xs (by simp [hx])

/-- `filter` over a cons with a kept head, predicate explicit. -/
theorem filter_cons_pos {α : Type} (p : α → Bool) (x : α) (xs : List α) (hx : p x = true) :
    (x :: xs).filter p = x :: xs.filter p :=
  List.filter_cons_of_pos hx

/-- `filter` over a cons with a dropped head. -/
theorem filter_cons_neg {α : Type} (p : α → Bool) (x : α) (xs : List α) (hx : p x = false) :
    (x :: xs).filter p = xs.filter p :=
  List.filter_cons_of_neg (by simp [hx])

namespace Store

/-- Upserting over a head whose id matches replaces the head. -/
theorem upsert_cons_pos {x it : Item} {xs : List Item} (hx : (x.id == it.id) = true) :
    upsertById (x :: xs) it = it :: xs := by
  simp [upsertById, findIndex, hx]

/-- Upserting over a non-matching head with a match further down recurses
under the head. -/
theorem upsert_cons_neg_found {x it : Item} {xs : List Item} {j : Nat}
    (hx : (x.id == it.id) = false)
    (hj : findIndex (fun z => z.id == it.id) xs = some j) :
    upsertById (x :: xs) it = x :: upsertById xs it := by
  simp [upsertById, findIndex, hx, hj]

/-- With no matching id anywhere, upsert is `unshift`. -/
theorem upsert_of_not_found {it : Item} {l : List Item}
    (h : findIndex (fun z => z.id == it.id) l = none) :
    upsertById l it = it :: l := by
  simp [upsertById, h]

/-- The upserted item is always in the result. -/
theorem mem_upsert_self (l : List Item) (it : Item) : it ∈ upsertById l it := by
  induction l with
  | nil => simp [upsertById, findIndex]
  | cons x xs ih =>
    cases hx : x.id == it.id with
    | true =>
      rw [upsert_cons_pos hx]
      exact List.mem_cons_self ..
    | false =>
      cases hj : findIndex (fun z => z.id == it.id) xs with
      | none =>
        have hu : upsertById (x :: xs) it = it :: x :: xs := by
          simp [upsertById, findIndex, hx, hj]
        rw [hu]
        exact List.mem_cons_self ..
      | some j =>
        rw [upsert_cons_neg_found hx hj]
        exact List.mem_cons_of_mem _ ih

/-- Upsert leaves the entries with other ids unchanged, in value and
order. -/
theorem upsert_filter_ne (l : List Item) (it : Item) :
    (upsertById l it).filter (fun x => x.id != it.id)
      = l.filter (fun x => x.id != it.id) := by
  induction l with
  | nil => simp [upsertById, findIndex, List.filter_cons, bne_self_eq_false]
  | cons x xs ih =>
    cases hx : x.id == it.id with
    | true =>
      have hxf : (x.id != it.id) = false := by simp [bne, hx]
      rw [upsert_cons_pos hx]
      simp [List.filter_cons, hxf, bne_self_eq_false]
    | false =>
      have hxt : (x.id != it.id) = true := by simp [bne, hx]
      cases hj : findIndex (fun z => z.id == it.id) xs with
      | none =>
        have hu : upsertById (x :: xs) it = it :: x :: xs := by
          simp [upsertById, findIndex, hx, hj]
        rw [hu]
        simp [List.filter_cons, hxt, bne_self_eq_false]
      | some j =>
        rw [upsert_cons_neg_found hx hj]
        simp [List.filter_cons, hxt, ih]

/-- In an id-distinct list, the upserted id occurs exactly once afterwards,
with the upserted value. -/
theorem upsert_filter_eq {l : List Item} (it : Item) (h : (l.map Item.id).Nodup) :
    (upsertById l it).filter (fun x => x.id == it.id) = [it] := by
  induction l with
  | nil => simp [upsertById, findIndex, List.filter_cons]
  | cons x xs ih =>
    rw [List.map_cons, List.nodup_cons] at h
    obtain ⟨hnx, hnxs⟩ := h
    cases hx : x.id == it.id with
    | true =>
      rw [upsert_cons_pos hx]
      have hxid : x.id = it.id := eq_of_beq hx
      have hnil : xs.filter (fun z => z.id == it.id) = [] := by
        rw [List.filter_eq_nil_iff]
        intro a ha
        have h1 : a.id ≠ it.id := by
          rw [← hxid]
          intro hh
          exact hnx (hh ▸ List.mem_map_of_mem Item.id ha)
        simp [h1]
      simp [List.filter_cons, hnil]
    | false =>
      cases hj : findIndex (fun z => z.id == it.id) xs with
      | none =>
        have hu : upsertById (x :: xs) it = it :: x :: xs := by
          simp [upsertById, findIndex, hx, hj]
        have hnil : xs.filter (fun z => z.id == it.id) = [] := by
          rw [List.filter_eq_nil_iff]
          intro a ha
          simp [(findIndex_eq_none_iff _ _).mp hj a ha]
        rw [hu]
        simp [List.filter_cons, hx, hnil]
      | some j =>
        rw [upsert_cons_neg_found hx hj]
        simp [List.filter_cons, hx, ih hnxs]

/-- When the id is already present, upsert preserves the id sequence. -/
theorem upsert_map_id_of_found {l : List Item} {it : Item} {j : Nat}
    (hj : findIndex (fun z => z.id == it.id) l = some j) :
    (upsertById l it).map Item.id = l.map Item.id := by
  induction l generalizing j with
  | nil => simp [findIndex] at hj
  | cons x xs ih =>
    cases hx : x.id == it.id with
    | true =>
      rw [upsert_cons_pos hx]
      simp [eq_of_beq hx]
    | false =>
      cases hj2 : findIndex (fun z => z.id == it.id) xs with
      | none => simp [findIndex, hx, hj2] at hj
      | some j2 =>
        rw [upsert_cons_neg_found hx hj2]
        simp [ih hj2]

/-- Upsert preserves distinctness of the id sequence. -/
theorem upsert_nodup {l : List Item} (it : Item) (h : (l.map Item.id).Nodup) :
    ((upsertById l it).map Item.id).Nodup := by
  cases hj : findIndex (fun z => z.id == it.id) l with
  | some j => rw [upsert_map_id_of_found hj]; exact h
  | none =>
    rw [upsert_of_not_found hj, List.map_cons, List.nodup_cons]
    refine ⟨?_, h⟩
    intro hmem
    obtain ⟨y, hy, hyid⟩ := List.mem_map.mp hmem
    have hf := (findIndex_eq_none_iff _ _).mp hj y hy
    simp [hyid] at hf

/-- In an id-distinct list, `find?` locates the upserted item. -/
theorem upsert_find? {l : List Item} (it : Item) (h : (l.map Item.id).Nodup) :
    (upsertById l it).find? (fun x => x.id == it.id) = some it := by
  rw [find?_eq_head?_filter, upsert_filter_eq it h]
  rfl

/-- In an id-distinct list, `find?` by the id of a member returns that
member. -/
theorem find?_id_of_mem {l : List Item} {b : Item} (h : (l.map Item.id).Nodup) (hm : b ∈ l) :
    l.find? (fun x => x.id == b.id) = some b := by
  induction l with
  | nil => cases hm
  | cons x xs ih =>
    rw [List.map_cons, List.nodup_cons] at h
    obtain ⟨hnx, hnxs⟩ := h
    rcases List.mem_cons.mp hm with rfl | hm2
    · exact List.find?_cons_of_pos _ (beq_self_eq_true _)
    · have hxb : (x.id == b.id) = false := by
        have hne : x.id ≠ b.id := fun hh => hnx (hh ▸ List.mem_map_of_mem Item.id hm2)
        simp [hne]
      rw [List.find?_cons_of_neg _ (by simp [hxb])]
      exact ih hnxs hm2

/-- Upserting a patched item of the same id and then re-upserting the
original `before` snapshot restores the list exactly: this is the
speculative-patch-then-rollback round trip of the optimistic writes. -/
theorem upsert_rollback {l : List Item} {b it : Item}
    (hf : l.find? (fun x => x.id == b.id) = some b) (hit : it.id = b.id) :
    upsertById (upsertById l it) b = l := by
  induction l with
  | nil => simp [List.find?] at hf
  | cons x xs ih =>
    cases hx : x.id == b.id with
    | true =>
      have hxb : x = b := by
        rw [find?_cons_pos (fun z => z.id == b.id) x xs hx] at hf
        exact Option.some.inj hf
      have h1 : (x.id == it.id) = true := by simp [hit, eq_of_beq hx]
      rw [upsert_cons_pos h1]
      have h2 : (it.id == b.id) = true := by simp [hit]
      rw [upsert_cons_pos h2, hxb]
    | false =>
      have hf2 : xs.find? (fun z => z.id == b.id) = some b := by
        rw [find?_cons_neg (fun z => z.id == b.id) x xs hx] at hf
        exact hf
      have hmem : b ∈ xs := List.mem_of_find?_eq_some hf2
      obtain ⟨j, hj⟩ :=
        findIndex_some_of_mem (fun z => z.id == b.id) hmem (beq_self_eq_true b.id)
      have hj1 : findIndex (fun z => z.id == it.id) xs = some j := by rw [hit]; exact hj
      have hx1 : (x.id == it.id) = false := by rw [hit]; exact hx
      rw [upsert_cons_neg_found hx1 hj1]
      have hitb : (it.id == b.id) = true := by simp [hit]
      obtain ⟨j2, hj2⟩ :=
        findIndex_some_of_mem (fun z => z.id == b.id) (mem_upsert_self xs it) hitb
      rw [upsert_cons_neg_found hx hj2, ih hf2]

/-- Removing over a head whose id matches drops the head. -/
theorem removeFirst_cons_pos {x : Item} {xs : List Item} {tid : String}
    (hx : (x.id == tid) = true) :
    removeFirstById (x :: xs) tid = xs := by
  simp [removeFirstById, findIndex_cons, hx]

/-- Removing over a non-matching head recurses under the head. -/
theorem removeFirst_cons_neg {x : Item} {xs : List Item} {tid : String}
    (hx : (x.id == tid) = false) :
    removeFirstById (x :: xs) tid = x :: removeFirstById xs tid := by
  cases hj : findIndex (fun z => z.id == tid) xs with
  | none => simp [removeFirstById, findIndex_cons, hx, hj]
  | some j => simp [removeFirstById, findIndex_cons, hx, hj]

/-- In an id-distinct list, removing the first id occurrence is filtering
the id out, and entries with other ids keep value and order. -/
theorem removeFirst_eq_filter {l : List Item} {tid : String} (h : (l.map Item.id).Nodup) :
    removeFirstById l tid = l.filter (fun x => x.id != tid) := by
  induction l with
  | nil => rfl
  | cons x xs ih =>
    rw [List.map_cons, List.nodup_cons] at h
    obtain ⟨hnx, hnxs⟩ := h
    cases hx : x.id == tid with
    | true =>
      rw [removeFirst_cons_pos hx]
      have hid : x.id = tid := eq_of_beq hx
      have hself : xs.filter (fun z => z.id != tid) = xs := by
        rw [List.filter_eq_self]
        intro a ha
        have hne : a.id ≠ tid := by
          rw [← hid]
          exact fun hh => hnx (hh ▸ List.mem_map_of_mem Item.id ha)
        simp [bne, hne]
      have hxf : (x.id != tid) = false := by simp [bne, hx]
      rw [filter_cons_neg (fun z => z.id != tid) x xs hxf, hself]
    | false =>
      have hxt : (x.id != tid) = true := by simp [bne, hx]
      rw [removeFirst_cons_neg hx, filter_cons_pos (fun z => z.id != tid) x xs hxt, ih hnxs]

/-- A pointwise-`some` `filterMap` that preserves ids maps the id sequence
to itself. -/
theorem filterMap_map_id {l : List Item} {f : Item → Option Item}
    (h : ∀ a ∈ l, ∃ b, f a = some b ∧ b.id = a.id) :
    (l.filterMap f).map Item.id = l.map Item.id := by
  induction l with
  | nil => rfl
  | cons x xs ih =>
    obtain ⟨b, hb, hbid⟩ := h x (List.mem_cons_self ..)
    rw [List.filterMap_cons, hb]
    rw [List.map_cons, List.map_cons, hbid, ih (fun a ha => h a (List.mem_cons_of_mem _ ha))]

/-- The merge map always returns a value with the looked-up id for a member
of `existing`. -/
theorem lastWithId_mem {ex inc : List Item} {e : Item} (he : e ∈ ex) :
    ∃ it, lastWithId (ex ++ inc) e.id = some it ∧ it.id = e.id := by
  have hmem : e ∈ (ex ++ inc).reverse := by
    rw [List.mem_reverse]
    exact List.mem_append_left _ he
  have hs : ((ex ++ inc).reverse.find? (fun it => it.id == e.id)).isSome := by
    rw [List.find?_isSome]
    exact ⟨e, hmem, beq_self_eq_true _⟩
  obtain ⟨it, hit⟩ := Option.isSome_iff_exists.mp hs
  have hp := @List.find?_some Item (fun z => z.id == e.id) it ((ex ++ inc).reverse) hit
  refine ⟨it, ?_, eq_of_beq hp⟩
  exact hit

/-- The id sequence of a merge: the ids of `existing` followed by the ids of
the genuinely new incoming items. -/
theorem merge_map_id (ex inc : List Item) :
    (mergeUniqueById ex inc).map Item.id
      = ex.map Item.id
        ++ (inc.filter (fun i => !(ex.any (fun e => e.id == i.id)))).map Item.id := by
  show ((ex.filterMap fun e => lastWithId (ex ++ inc) e.id) ++ _).map Item.id = _
  rw [List.map_append]
  rw [filterMap_map_id (fun a ha => lastWithId_mem ha)]

/-- Merging two id-distinct lists yields an id-distinct list. -/
theorem merge_nodup {ex inc : List Item}
    (h1 : (ex.map Item.id).Nodup) (h2 : (inc.map Item.id).Nodup) :
    ((mergeUniqueById ex inc).map Item.id).Nodup := by
  rw [merge_map_id]
  apply List.Nodup.append h1
  · exact List.Nodup.sublist ((List.filter_sublist inc).map Item.id) h2
  · intro a ha hb
    obtain ⟨i, hi, hiid⟩ := List.mem_map.mp hb
    have hq := (List.mem_filter.mp hi).2
    obtain ⟨e, he, heid⟩ := List.mem_map.mp ha
    have hany : ex.any (fun e2 => e2.id == i.id) = true := by
      rw [List.any_eq_true]
      exact ⟨e, he, by simp [heid, hiid]⟩
    simp [hany] at hq

/-- Every id of `existing` survives a merge. -/
theorem mem_id_merge_left {ex : List Item} (inc : List Item) {x : Item} (hx : x ∈ ex) :
    x.id ∈ (mergeUniqueById ex inc).map Item.id := by
  rw [merge_map_id]
  exact List.mem_append_left _ (List.mem_map_of_mem Item.id hx)

/-- Looking up the id of the appended singleton in the merge map returns the
singleton (it is set last). -/
theorem lastWithId_append_singleton (ex : List Item) (c : Item) :
    lastWithId (ex ++ [c]) c.id = some c := by
  show ((ex ++ [c]).reverse.find? fun it => it.id == c.id) = some c
  rw [List.reverse_append]
  show ((c :: ex.reverse).find? fun it => it.id == c.id) = some c
  exact find?_cons_pos (fun it => it.id == c.id) c ex.reverse (beq_self_eq_true c.id)

/-- A singleton merge always contains the merged item itself. -/
theorem mem_merge_singleton (ex : List Item) (c : Item) :
    c ∈ mergeUniqueById ex [c] := by
  show c ∈ (ex.filterMap fun e => lastWithId (ex ++ [c]) e.id) ++ _
  cases hany : ex.any (fun e => e.id == c.id) with
  | false =>
    apply List.mem_append_right
    simp [List.filter_cons, hany]
  | true =>
    apply List.mem_append_left
    rw [List.mem_filterMap]
    obtain ⟨e, he, heid⟩ := List.any_eq_true.mp hany
    refine ⟨e, he, ?_⟩
    rw [eq_of_beq heid, lastWithId_append_singleton]

end Store

/-- A fresh `Map.set` on a key not present appends; looking the key up then
finds the new value. -/
theorem mapGet_mapSet_self {κ α : Type} [BEq κ] [LawfulBEq κ] {m : List (κ × α)} {k : κ} (v : α)
    (h : mapGet m k = none) : mapGet (mapSet m k v) k = some v := by
  have hfind : m.find? (fun p => p.1 == k) = none := by
    rw [mapGet, Option.map_eq_none'] at h
    exact h
  have hany : m.any (fun p => p.1 == k) = false := by
    cases hA : m.any (fun p => p.1 == k) with
    | false => rfl
    | true =>
      obtain ⟨p, hp, hpk⟩ := List.any_eq_true.mp hA
      have := List.find?_eq_none.mp hfind p hp
      simp [hpk] at this
  rw [mapSet, hany]
  show mapGet (m ++ [(k, v)]) k = some v
  rw [mapGet, List.find?_append, hfind]
  rw [find?_cons_pos (fun p => p.1 == k) (k, v) [] (beq_self_eq_true k)]
  rfl

/-- `Map.delete` then `Map.get` on the same key finds nothing. -/
theorem mapGet_mapDelete_self {κ α : Type} [BEq κ] [LawfulBEq κ] (m : List (κ × α)) (k : κ) :
    mapGet (mapDelete m k) k = none := by
  rw [mapGet, Option.map_eq_none', List.find?_eq_none]
  intro p hp
  have h2 := (List.mem_filter.mp hp).2
  simp only [Bool.not_eq_eq_eq_not, Bool.not_true] at h2
  simp [h2]

namespace Store

/-- `pushError` only appends its entry to the error queue. -/
theorem pushError_eq (s : StoreState) (err : WsError) (genId : String)
    (itemId : Option String) (changes : Option ItemUpdate) :
    pushError s err genId itemId changes
      = { s with errorQueue := s.errorQueue ++ [errEntry err genId itemId changes] } :=
  rfl

/-- Items equation of the synchronous prefix of `updateItem` when the target
is cached. -/
theorem updateItemStart_items {s : StoreState} {itemId : String} {b : Item}
    (changes : ItemUpdate) (opId : String)
    (hfound : s.items.find? (fun i => i.id == itemId) = some b) :
    (updateItemStart s itemId changes opId).items
      = upsertById s.items (spreadUpdate b changes) := by
  simp [updateItemStart, hfound, applyOptimistic]

/-- Items equation of a successful `updateItem` when the target is cached. -/
theorem updateItem_ok_items {s : StoreState} {itemId : String} {b : Item}
    (changes : ItemUpdate) (opId : String) (updated : Item) (errId : String)
    (hfound : s.items.find? (fun i => i.id == itemId) = some b) :
    (updateItem s itemId changes opId (Except.ok updated) errId).items
      = upsertById (upsertById s.items (spreadUpdate b changes)) updated := by
  simp [updateItem, updateItemStart, hfound, applyOptimistic]

/-- Items and error-queue equations of a failed `updateItem` when the target
is cached. -/
theorem updateItem_err_eqs {s : StoreState} {itemId : String} {b : Item}
    (changes : ItemUpdate) (opId : String) (err : WsError) (errId : String)
    (hfound : s.items.find? (fun i => i.id == itemId) = some b) :
    (updateItem s itemId changes opId (Except.error err) errId).items
        = upsertById (upsertById s.items (spreadUpdate b changes)) b
      ∧ (updateItem s itemId changes opId (Except.error err) errId).errorQueue
        = s.errorQueue ++ [errEntry err errId (some itemId) (some changes)] := by
  constructor
  · simp [updateItem, updateItemStart, hfound, applyOptimistic, pushError_eq]
  · simp [updateItem, updateItemStart, hfound, applyOptimistic, pushError_eq]

/-- Items equation of the synchronous prefix of `deleteItem` when the target
is cached. -/
theorem deleteItemStart_items {s : StoreState} {itemId : String} {b : Item}
    (opId : String)
    (hfound : s.items.find? (fun i => i.id == itemId) = some b) :
    (deleteItemStart s itemId opId).items = s.items.filter (fun x => x.id != itemId) := by
  simp [deleteItemStart, hfound, removeById]

/-- Items and error-queue equations of a failed `deleteItem` when the target
is cached. -/
theorem deleteItem_err_eqs {s : StoreState} {itemId : String} {b : Item}
    (opId : String) (err : WsError) (errId : String)
    (hfound : s.items.find? (fun i => i.id == itemId) = some b) :
    (deleteItem s itemId opId (Except.error err) errId).items
        = upsertById (s.items.filter (fun x => x.id != itemId)) b
      ∧ (deleteItem s itemId opId (Except.error err) errId).errorQueue
        = s.errorQueue ++ [errEntry err errId none none] := by
  constructor
  · simp [deleteItem, deleteItemStart, hfound, removeById, applyOptimistic, pushError_eq]
  · simp [deleteItem, deleteItemStart, hfound, removeById, applyOptimistic, pushError_eq]

/-- The synchronous prefix of `createItem` does not touch the items list. -/
theorem createItemStart_items (s : StoreState) (opId : String) :
    (createItemStart s opId).items = s.items :=
  rfl

/-- Items equation of a successful `createItem`. -/
theorem createItem_ok_items (s : StoreState) (opId : String) (created : Item) (errId : String) :
    (createItem s opId (Except.ok created) errId).items
      = mergeUniqueById s.items [created] :=
  rfl

/-- Items equation of the synchronous prefix of a simple optimistic write
when the target is cached. -/
theorem optimisticOpStart_items {s : StoreState} {itemId : String} {b : Item}
    (patch : Item → Item)
    (hfound : s.items.find? (fun i => i.id == itemId) = some b) :
    (optimisticOpStart s itemId patch).items = upsertById s.items (patch b) := by
  simp [optimisticOpStart, hfound, applyOptimistic]

/-- Re-inserting the removed snapshot lands at the front: after the
speculative removal no entry with the id is left, so `applyOptimistic`
unshifts. -/
theorem upsert_into_removed (l : List Item) (b : Item) :
    upsertById (l.filter (fun x => x.id != b.id)) b
      = b :: l.filter (fun x => x.id != b.id) := by
  apply upsert_of_not_found
  rw [findIndex_eq_none_iff]
  intro y hy
  have h2 := (List.mem_filter.mp hy).2
  simp only [bne, Bool.not_eq_eq_eq_not, Bool.not_true] at h2
  exact h2

/-- Filtering never duplicates ids. -/
theorem filter_ids_nodup {l : List Item} (p : Item → Bool) (h : (l.map Item.id).Nodup) :
    ((l.filter p).map Item.id).Nodup :=
  List.Nodup.sublist ((List.filter_sublist l).map Item.id) h

/-- A simple optimistic write preserves id-distinctness for every patch and
every server outcome. -/
theorem optimisticOp_nodup {s : StoreState} (itemId : String) (patch : Item → Item)
    (resp : Except WsError Item) (errId : String) (h : (s.items.map Item.id).Nodup) :
    ((optimisticOp s itemId patch resp errId).items.map Item.id).Nodup := by
  cases hf : s.items.find? (fun i => i.id == itemId) with
  | some b =>
    cases resp with
    | ok updated =>
      have heq : (optimisticOp s itemId patch (Except.ok updated) errId).items
          = upsertById (upsertById s.items (patch b)) updated := by
        simp [optimisticOp, optimisticOpStart, hf, applyOptimistic]
      rw [heq]
      exact upsert_nodup _ (upsert_nodup _ h)
    | error err =>
      have heq : (optimisticOp s itemId patch (Except.error err) errId).items
          = upsertById (upsertById s.items (patch b)) b := by
        simp [optimisticOp, optimisticOpStart, hf, applyOptimistic, pushError_eq]
      rw [heq]
      exact upsert_nodup _ (upsert_nodup _ h)
  | none =>
    cases resp with
    | ok updated =>
      have heq : (optimisticOp s itemId patch (Except.ok updated) errId).items
          = upsertById s.items updated := by
        simp [optimisticOp, optimisticOpStart, hf, applyOptimistic]
      rw [heq]
      exact upsert_nodup _ h
    | error err =>
      have heq : (optimisticOp s itemId patch (Except.error err) errId).items = s.items := by
        simp [optimisticOp, optimisticOpStart, hf, pushError_eq]
      rw [heq]
      exact h

/-- `updateItem` preserves id-distinctness for every outcome. -/
theorem updateItem_nodup {s : StoreState} (itemId : String) (changes : ItemUpdate)
    (opId : String) (resp : Except WsError Item) (errId : String)
    (h : (s.items.map Item.id).Nodup) :
    ((updateItem s itemId changes opId resp errId).items.map Item.id).Nodup := by
  cases hf : s.items.find? (fun i => i.id == itemId) with
  | some b =>
    cases resp with
    | ok updated =>
      rw [updateItem_ok_items changes opId updated errId hf]
      exact upsert_nodup _ (upsert_nodup _ h)
    | error err =>
      rw [(updateItem_err_eqs changes opId err errId hf).1]
      exact upsert_nodup _ (upsert_nodup _ h)
  | none =>
    cases resp with
    | ok updated =>
      have heq : (updateItem s itemId changes opId (Except.ok updated) errId).items
          = upsertById s.items updated := by
        simp [updateItem, updateItemStart, hf, applyOptimistic]
      rw [heq]
      exact upsert_nodup _ h
    | error err =>
      have heq : (updateItem s itemId changes opId (Except.error err) errId).items
          = s.items := by
        simp [updateItem, updateItemStart, hf, pushError_eq]
      rw [heq]
      exact h

/-- `deleteItem` preserves id-distinctness for every outcome. -/
theorem deleteItem_nodup {s : StoreState} (itemId opId : String)
    (resp : Except WsError Unit) (errId : String) (h : (s.items.map Item.id).Nodup) :
    ((deleteItem s itemId opId resp errId).items.map Item.id).Nodup := by
  cases hf : s.items.find? (fun i => i.id == itemId) with
  | some b =>
    cases resp with
    | ok u =>
      have heq : (deleteItem s itemId opId (Except.ok u) errId).items
          = s.items.filter (fun x => x.id != itemId) := by
        simp [deleteItem, deleteItemStart, hf, removeById]
      rw [heq]
      exact filter_ids_nodup _ h
    | error err =>
      rw [(deleteItem_err_eqs opId err errId hf).1]
      exact upsert_nodup _ (filter_ids_nodup _ h)
  | none =>
    cases resp with
    | ok u =>
      have heq : (deleteItem s itemId opId (Except.ok u) errId).items = s.items := by
        simp [deleteItem, deleteItemStart, hf]
      rw [heq]
      exact h
    | error err =>
      have heq : (deleteItem s itemId opId (Except.error err) errId).items = s.items := by
        simp [deleteItem, deleteItemStart, hf, pushError_eq]
      rw [heq]
      exact h

/-- `createItem` preserves id-distinctness for every outcome. -/
theorem createItem_nodup {s : StoreState} (opId : String) (resp : Except WsError Item)
    (errId : String) (h : (s.items.map Item.id).Nodup) :
    ((createItem s opId resp errId).items.map Item.id).Nodup := by
  cases resp with
  | ok created =>
    rw [createItem_ok_items]
    exact merge_nodup h (by simp)
  | error err => exact h

/-- Event processing preserves id-distinctness for every action. -/
theorem onItemsEvent_nodup {s : StoreState} (a : ItemsAction) (item : Item)
    (h : (s.items.map Item.id).Nodup) :
    ((onItemsEvent s a item).items.map Item.id).Nodup := by
  cases a
  case deleted =>
    show ((removeFirstById s.items item.id).map Item.id).Nodup
    rw [removeFirst_eq_filter h]
    exact filter_ids_nodup _ h
  all_goals exact upsert_nodup item h

/-- `refreshItem` preserves id-distinctness. -/
theorem refreshItem_nodup {s : StoreState} (resp : Except WsError Item) (errId : String)
    (h : (s.items.map Item.id).Nodup) :
    ((refreshItem s resp errId).items.map Item.id).Nodup := by
  cases resp with
  | ok latest => exact upsert_nodup latest h
  | error err => exact h

/-- Starting a list request never touches the items list. -/
theorem listItemsRequest_items (s : StoreState) (reset : Bool) (p : Nat) :
    (listItemsRequest s reset p).1.items = s.items := by
  cases hg : mapGet s.inflight (listItemsKey s reset) with
  | some pid => simp [listItemsRequest, hg]
  | none => simp [listItemsRequest, hg]

/-- `setFilters` empties the items list. -/
theorem setFilters_items (s : StoreState) (patch : FiltersPatch) (p : Nat) :
    (setFilters s patch p).1.items = [] := by
  show (listItemsRequest _ true p).1.items = []
  rw [listItemsRequest_items]
  rfl

end Store

/-- C1 counterexample: the claim says a speculative entry for the new item
is inserted into the cached items list synchronously, before the server
round trip.  On an empty cache, the synchronous prefix of
`Store.createItem` leaves the items list empty: no speculative entry
exists before the round trip completes. -/
theorem C1_counterexample :
    (Store.createItemStart demoEmpty "create:0").items = [] ∧ demoEmpty.items = [] :=
  ⟨rfl, rfl⟩

/-- C1 (amended): `Store.createItem` performs no speculative insert — its
synchronous prefix leaves the cached items list unchanged — and after a
successful round trip the server-returned item, carrying the
server-assigned id and version, is merged by id into the cached items list:
it is present afterwards and introduces no duplicate id. -/
theorem C1_create_no_speculative_insert_merge_on_success
    (s : StoreState) (opId errId : String) (created : Item)
    (h1 : (s.items.map Item.id).Nodup) :
    (Store.createItemStart s opId).items = s.items
    ∧ created ∈ (Store.createItem s opId (Except.ok created) errId).items
    ∧ ((Store.createItem s opId (Except.ok created) errId).items.map Item.id).Nodup := by
  refine ⟨rfl, ?_, ?_⟩
  · rw [Store.createItem_ok_items]
    exact Store.mem_merge_singleton s.items created
  · rw [Store.createItem_ok_items]
    exact Store.merge_nodup h1 (by simp)

/-- C1 witness: the amended create theorem at a concrete two-item cache. -/
theorem C1_witness :
    (demoAB.items.map Item.id).Nodup
    ∧ ((Store.createItemStart demoAB "create:0").items = demoAB.items
      ∧ itemC ∈ (Store.createItem demoAB "create:0" (Except.ok itemC) "e1").items
      ∧ ((Store.createItem demoAB "create:0" (Except.ok itemC) "e1").items.map
          Item.id).Nodup) :=
  ⟨by decide,
    C1_create_no_speculative_insert_merge_on_success demoAB "create:0" "e1" itemC (by decide)⟩

/-- C2: a failed `Store.updateItem` on a cached item restores the cache to
its exact pre-mutation snapshot (the items list is unchanged as a whole)
and appends exactly one structured error entry carrying the error code,
the conflict kind exactly when the code is `conflict`, the target item id,
and the originally intended changes payload. -/
theorem C2_update_failure_rollback_and_error_entry
    (s : StoreState) (itemId : String) (changes : ItemUpdate) (opId errId : String)
    (err : WsError) (b : Item)
    (hfound : s.items.find? (fun i => i.id == itemId) = some b) :
    (Store.updateItem s itemId changes opId (Except.error err) errId).items = s.items
    ∧ ∃ entry,
        (Store.updateItem s itemId changes opId (Except.error err) errId).errorQueue
          = s.errorQueue ++ [entry]
        ∧ entry.code = err.code.getD "unknown_error"
        ∧ (entry.kind = ErrKind.conflict ↔ entry.code = "conflict")
        ∧ entry.itemId = some itemId
        ∧ entry.changes = some changes := by
  obtain ⟨hitems, hqueue⟩ := Store.updateItem_err_eqs changes opId err errId hfound
  have hbeq := @List.find?_some Item (fun i => i.id == itemId) b s.items hfound
  have hbid : b.id = itemId := eq_of_beq hbeq
  constructor
  · rw [hitems]
    have hf2 : s.items.find? (fun x => x.id == b.id) = some b := by
      rw [hbid]
      exact hfound
    exact Store.upsert_rollback hf2 rfl
  · refine ⟨Store.errEntry err errId (some itemId) (some changes), hqueue, rfl, ?_, rfl, rfl⟩
    cases hc : err.code.getD "unknown_error" == "conflict" with
    | true => simp [Store.errEntry, hc, eq_of_beq hc]
    | false =>
      have hne : err.code.getD "unknown_error" ≠ "conflict" := by
        intro hh
        simp [hh] at hc
      simp [Store.errEntry, hc, hne]

/-- C2 witness: the conflict-rollback theorem at a concrete cache, a
conflict error and a name change. -/
theorem C2_witness :
    demoAB.items.find? (fun i => i.id == "b") = some itemB
    ∧ ((Store.updateItem demoAB "b" { name := some "B2" } "op" (Except.error conflictErr)
          "e1").items = demoAB.items
      ∧ ∃ entry,
          (Store.updateItem demoAB "b" { name := some "B2" } "op" (Except.error conflictErr)
            "e1").errorQueue = demoAB.errorQueue ++ [entry]
          ∧ entry.code = conflictErr.code.getD "unknown_error"
          ∧ (entry.kind = ErrKind.conflict ↔ entry.code = "conflict")
          ∧ entry.itemId = some "b"
          ∧ entry.changes = some { name := some "B2" }) :=
  ⟨by decide,
    C2_update_failure_rollback_and_error_entry demoAB "b" { name := some "B2" } "op" "e1"
      conflictErr itemB (by decide)⟩

/-- C3 counterexample: the claim says a failed delete makes the item
reappear in its original position.  Deleting the second of two cached items
with a failing server call re-inserts it at the front: the cache becomes
`[itemB, itemA]`, not the original `[itemA, itemB]`. -/
theorem C3_counterexample :
    demoAB.items = [itemA, itemB]
    ∧ (Store.deleteItem demoAB "b" "op" (Except.error conflictErr) "e1").items
        = [itemB, itemA]
    ∧ itemA ≠ itemB :=
  ⟨rfl, by decide, by decide⟩

/-- C3 (amended): `Store.deleteItem` on a cached item removes it from the
cached list immediately, in its synchronous prefix, before the server
responds; if the server call fails, the item reappears with its original
state but at the front of the list (index 0), not necessarily in its
original position. -/
theorem C3_delete_speculative_rollback_to_front
    (s : StoreState) (itemId opId errId : String) (err : WsError) (b : Item)
    (hfound : s.items.find? (fun i => i.id == itemId) = some b) :
    (Store.deleteItemStart s itemId opId).items = s.items.filter (fun x => x.id != itemId)
    ∧ (Store.deleteItem s itemId opId (Except.error err) errId).items
        = b :: s.items.filter (fun x => x.id != itemId) := by
  refine ⟨Store.deleteItemStart_items opId hfound, ?_⟩
  obtain ⟨hitems, _⟩ := Store.deleteItem_err_eqs opId err errId hfound
  rw [hitems]
  have hbeq := @List.find?_some Item (fun i => i.id == itemId) b s.items hfound
  have hbid : b.id = itemId := eq_of_beq hbeq
  rw [← hbid]
  exact Store.upsert_into_removed s.items b

/-- C3 witness: the amended delete theorem at a concrete two-item cache. -/
theorem C3_witness :
    demoAB.items.find? (fun i => i.id == "b") = some itemB
    ∧ ((Store.deleteItemStart demoAB "b" "op").items
        = demoAB.items.filter (fun x => x.id != "b")
      ∧ (Store.deleteItem demoAB "b" "op" (Except.error conflictErr) "e1").items
        = itemB :: demoAB.items.filter (fun x => x.id != "b")) :=
  ⟨by decide,
    C3_delete_speculative_rollback_to_front demoAB "b" "op" "e1" conflictErr itemB (by decide)⟩

/-- C4 counterexample: the claim quantifies over every completed list
fetch.  For a reset fetch it fails: an item that arrived through a push
event while the fetch was in flight is present in the cache when the
response is processed, yet the reset completion replaces the cache with the
fetched page and drops it. -/
theorem C4_counterexample :
    itemC ∈ (Store.onItemsEvent demoAB ItemsAction.created itemC).items
    ∧ (Store.listItemsComplete (Store.onItemsEvent demoAB ItemsAction.created itemC) true
        (Store.listItemsKey demoAB true) { items := [itemA], next_cursor := none }).items
      = [itemA]
    ∧ itemC.id ∉ ((Store.listItemsComplete (Store.onItemsEvent demoAB ItemsAction.created itemC)
        true (Store.listItemsKey demoAB true)
        { items := [itemA], next_cursor := none }).items.map Item.id) := by
  refine ⟨by decide, by decide, by decide⟩

/-- C4 (amended): when a non-reset (cursor-append) list fetch completes,
the resulting cached items list is the deduplicated-by-id merge of the
entities loaded at the time the response is processed with the fetched
page: every item present at response time — including one merged from a
push event that arrived during the fetch — is still present by id, and no
id is duplicated.  A reset fetch instead replaces the cached list with the
fetched page. -/
theorem C4_list_merge_semantics
    (s : StoreState) (key : ListKey) (res : ListItemsResult) (z : Item)
    (h1 : (s.items.map Item.id).Nodup)
    (h2 : (res.items.map Item.id).Nodup) :
    (Store.listItemsComplete s false key res).items = Store.mergeUniqueById s.items res.items
    ∧ ((Store.listItemsComplete s false key res).items.map Item.id).Nodup
    ∧ (∀ x ∈ s.items, x.id ∈ (Store.listItemsComplete s false key res).items.map Item.id)
    ∧ z.id ∈ (Store.listItemsComplete (Store.onItemsEvent s ItemsAction.created z) false key
        res).items.map Item.id
    ∧ (Store.listItemsComplete s true key res).items = res.items := by
  refine ⟨rfl, ?_, ?_, ?_, rfl⟩
  · show ((Store.mergeUniqueById s.items res.items).map Item.id).Nodup
    exact Store.merge_nodup h1 h2
  · intro x hx
    show x.id ∈ (Store.mergeUniqueById s.items res.items).map Item.id
    exact Store.mem_id_merge_left res.items hx
  · show z.id ∈ (Store.mergeUniqueById (Store.onItemsEvent s ItemsAction.created z).items
      res.items).map Item.id
    have hz : z ∈ (Store.onItemsEvent s ItemsAction.created z).items := by
      show z ∈ Store.upsertById s.items z
      exact Store.mem_upsert_self s.items z
    exact Store.mem_id_merge_left res.items hz

/-- C4 witness: the amended merge theorem at a concrete cache and page. -/
theorem C4_witness :
    (demoAB.items.map Item.id).Nodup
    ∧ ((ListItemsResult.mk [itemC] (some "cur")).items.map Item.id).Nodup
    ∧ ((Store.listItemsComplete demoAB false (Store.listItemsKey demoAB false)
          (ListItemsResult.mk [itemC] (some "cur"))).items
        = Store.mergeUniqueById demoAB.items [itemC]
      ∧ ((Store.listItemsComplete demoAB false (Store.listItemsKey demoAB false)
          (ListItemsResult.mk [itemC] (some "cur"))).items.map Item.id).Nodup
      ∧ (∀ x ∈ demoAB.items, x.id ∈ (Store.listItemsComplete demoAB false
          (Store.listItemsKey demoAB false)
          (ListItemsResult.mk [itemC] (some "cur"))).items.map Item.id)
      ∧ itemB.id ∈ (Store.listItemsComplete (Store.onItemsEvent demoAB ItemsAction.created itemB)
          false (Store.listItemsKey demoAB false)
          (ListItemsResult.mk [itemC] (some "cur"))).items.map Item.id
      ∧ (Store.listItemsComplete demoAB true (Store.listItemsKey demoAB false)
          (ListItemsResult.mk [itemC] (some "cur"))).items = [itemC]) :=
  ⟨by decide, by decide,
    C4_list_merge_semantics demoAB (Store.listItemsKey demoAB false)
      (ListItemsResult.mk [itemC] (some "cur")) itemB (by decide) (by decide)⟩

/-- C5: `Store.setFilters` with any patch resets the cursor to `null` and
the loaded items to empty, re-issues the items-topic subscription with the
new filters' `location_id` and `include_subtree` scope, and issues a fresh
first-page list request (cursor absent, filter built from the new filters),
provided no identical first-page request is already in flight. -/
theorem C5_setFilters_reset_resubscribe_refetch
    (s : StoreState) (patch : FiltersPatch) (fresh : Nat)
    (hfree : mapGet s.inflight
        { filter := Store.filterOfFilters (Store.applyFiltersPatch s.filters patch)
          sort := (Store.applyFiltersPatch s.filters patch).sort
          limit := 50
          cursor := none } = none) :
    (Store.setFilters s patch fresh).1.items = []
    ∧ (Store.setFilters s patch fresh).1.cursor = none
    ∧ (Store.setFilters s patch fresh).1.filters = Store.applyFiltersPatch s.filters patch
    ∧ (Store.setFilters s patch fresh).1.itemsSub
        = some ⟨(Store.applyFiltersPatch s.filters patch).locationId,
            (Store.applyFiltersPatch s.filters patch).includeSubtree⟩
    ∧ (Store.setFilters s patch fresh).1.sent
        = s.sent
          ++ [{ filter := Store.filterOfFilters (Store.applyFiltersPatch s.filters patch)
                sort := (Store.applyFiltersPatch s.filters patch).sort
                limit := 50
                cursor := none }] := by
  refine ⟨?_, ?_, ?_, ?_, ?_⟩ <;>
    simp [Store.setFilters, Store.subscribeTopics, Store.listItemsRequest, Store.listItemsKey,
      hfree]

/-- C5 witness: the set-filters theorem at a concrete state and patch. -/
theorem C5_witness :
    mapGet demoAB.inflight
      { filter := Store.filterOfFilters (Store.applyFiltersPatch demoAB.filters
          (FiltersPatch.mk (some "ba") none none none none none none))
        sort := (Store.applyFiltersPatch demoAB.filters
          (FiltersPatch.mk (some "ba") none none none none none none)).sort
        limit := 50
        cursor := none } = none
    ∧ ((Store.setFilters demoAB (FiltersPatch.mk (some "ba") none none none none none none)
          7).1.items = []
      ∧ (Store.setFilters demoAB (FiltersPatch.mk (some "ba") none none none none none none)
          7).1.cursor = none
      ∧ (Store.setFilters demoAB (FiltersPatch.mk (some "ba") none none none none none none)
          7).1.filters = Store.applyFiltersPatch demoAB.filters
            (FiltersPatch.mk (some "ba") none none none none none none)
      ∧ (Store.setFilters demoAB (FiltersPatch.mk (some "ba") none none none none none none)
          7).1.itemsSub
        = some ⟨(Store.applyFiltersPatch demoAB.filters
              (FiltersPatch.mk (some "ba") none none none none none none)).locationId,
            (Store.applyFiltersPatch demoAB.filters
              (FiltersPatch.mk (some "ba") none none none none none none)).includeSubtree⟩
      ∧ (Store.setFilters demoAB (FiltersPatch.mk (some "ba") none none none none none none)
          7).1.sent
        = demoAB.sent
          ++ [{ filter := Store.filterOfFilters (Store.applyFiltersPatch demoAB.filters
                  (FiltersPatch.mk (some "ba") none none none none none none))
                sort := (Store.applyFiltersPatch demoAB.filters
                  (FiltersPatch.mk (some "ba") none none none none none none)).sort
                limit := 50
                cursor := none }]) :=
  ⟨by decide,
    C5_setFilters_reset_resubscribe_refetch demoAB
      (FiltersPatch.mk (some "ba") none none none none none none) 7 (by decide)⟩

/-- C6: an `items` push event upserts by id: for the non-delete actions the
cache afterwards contains the event's item snapshot exactly once (replacing
the entry with that id or newly inserted), and entries with other ids are
unchanged in value and order; for `deleted` the entry with that id is
removed and the rest is untouched. -/
theorem C6_items_event_upsert_by_id
    (s : StoreState) (a : ItemsAction) (item : Item)
    (h : (s.items.map Item.id).Nodup) :
    (a = ItemsAction.deleted →
      (Store.onItemsEvent s a item).items = s.items.filter (fun x => x.id != item.id))
    ∧ (a ≠ ItemsAction.deleted →
      (Store.onItemsEvent s a item).items.filter (fun x => x.id == item.id) = [item]
      ∧ (Store.onItemsEvent s a item).items.filter (fun x => x.id != item.id)
        = s.items.filter (fun x => x.id != item.id)
      ∧ ((Store.onItemsEvent s a item).items.map Item.id).Nodup) := by
  constructor
  · intro ha
    subst ha
    show Store.removeFirstById s.items item.id = _
    exact Store.removeFirst_eq_filter h
  · intro ha
    have hup : (Store.onItemsEvent s a item).items = Store.upsertById s.items item := by
      cases a <;> first | rfl | exact absurd rfl ha
    rw [hup]
    exact ⟨Store.upsert_filter_eq item h, Store.upsert_filter_ne s.items item,
      Store.upsert_nodup item h⟩

/-- C6 witness: the event-upsert theorem at a concrete cache and a
`quantity_changed` event on a cached id. -/
theorem C6_witness :
    (demoAB.items.map Item.id).Nodup
    ∧ ((ItemsAction.quantity_changed = ItemsAction.deleted →
        (Store.onItemsEvent demoAB ItemsAction.quantity_changed itemB).items
          = demoAB.items.filter (fun x => x.id != itemB.id))
      ∧ (ItemsAction.quantity_changed ≠ ItemsAction.deleted →
        (Store.onItemsEvent demoAB ItemsAction.quantity_changed itemB).items.filter
            (fun x => x.id == itemB.id) = [itemB]
        ∧ (Store.onItemsEvent demoAB ItemsAction.quantity_changed itemB).items.filter
            (fun x => x.id != itemB.id)
          = demoAB.items.filter (fun x => x.id != itemB.id)
        ∧ ((Store.onItemsEvent demoAB ItemsAction.quantity_changed itemB).items.map
            Item.id).Nodup)) :=
  ⟨by decide, C6_items_event_upsert_by_id demoAB ItemsAction.quantity_changed itemB (by decide)⟩

/-- C7: while a list request with a given key is in flight, an identical
`listItems` call returns the same pending promise id and sends nothing (the
state, including the `sent` log, is unchanged); completion removes the
in-flight entry, so a later call computing the same key sends a new
WebSocket request. -/
theorem C7_inflight_dedup
    (s : StoreState) (reset : Bool) (fresh1 fresh2 fresh3 : Nat) (res : ListItemsResult)
    (hfree : mapGet s.inflight (Store.listItemsKey s reset) = none) :
    (Store.listItemsRequest s reset fresh1).1.sent = s.sent ++ [Store.listItemsKey s reset]
    ∧ (Store.listItemsRequest (Store.listItemsRequest s reset fresh1).1 reset fresh2).2
        = (Store.listItemsRequest s reset fresh1).2
    ∧ (Store.listItemsRequest (Store.listItemsRequest s reset fresh1).1 reset fresh2).1
        = (Store.listItemsRequest s reset fresh1).1
    ∧ mapGet (Store.listItemsComplete (Store.listItemsRequest s reset fresh1).1 reset
        (Store.listItemsKey s reset) res).inflight (Store.listItemsKey s reset) = none
    ∧ (∀ t : StoreState, Store.listItemsKey t reset = Store.listItemsKey s reset →
        mapGet t.inflight (Store.listItemsKey t reset) = none →
        (Store.listItemsRequest t reset fresh3).1.sent
          = t.sent ++ [Store.listItemsKey t reset]) := by
  have hstate : Store.listItemsRequest s reset fresh1
      = Prod.mk
          { s with
            inflight := mapSet s.inflight (Store.listItemsKey s reset) fresh1
            sent := s.sent ++ [Store.listItemsKey s reset] }
          fresh1 := by
    simp [Store.listItemsRequest, hfree]
  have hget1 : mapGet (mapSet s.inflight (Store.listItemsKey s reset) fresh1)
      (Store.listItemsKey s reset) = some fresh1 := mapGet_mapSet_self fresh1 hfree
  have hkeylit : Store.listItemsKey
      { s with
        inflight := mapSet s.inflight (Store.listItemsKey s reset) fresh1
        sent := s.sent ++ [Store.listItemsKey s reset] } reset
      = Store.listItemsKey s reset := rfl
  refine ⟨?_, ?_, ?_, ?_, ?_⟩
  · rw [hstate]
  · rw [hstate]
    simp [Store.listItemsRequest, hkeylit, hget1]
  · rw [hstate]
    simp [Store.listItemsRequest, hkeylit, hget1]
  · rw [hstate]
    exact mapGet_mapDelete_self ..
  · intro t hk hfT
    simp [Store.listItemsRequest, hfT]

/-- C7 witness: the dedup theorem at a concrete state with an empty
in-flight table. -/
theorem C7_witness :
    mapGet demoAB.inflight (Store.listItemsKey demoAB true) = none
    ∧ ((Store.listItemsRequest demoAB true 7).1.sent
        = demoAB.sent ++ [Store.listItemsKey demoAB true]
      ∧ (Store.listItemsRequest (Store.listItemsRequest demoAB true 7).1 true 8).2
        = (Store.listItemsRequest demoAB true 7).2
      ∧ (Store.listItemsRequest (Store.listItemsRequest demoAB true 7).1 true 8).1
        = (Store.listItemsRequest demoAB true 7).1
      ∧ mapGet (Store.listItemsComplete (Store.listItemsRequest demoAB true 7).1 true
          (Store.listItemsKey demoAB true)
          (ListItemsResult.mk [itemC] none)).inflight (Store.listItemsKey demoAB true) = none
      ∧ (∀ t : StoreState, Store.listItemsKey t true = Store.listItemsKey demoAB true →
          mapGet t.inflight (Store.listItemsKey t true) = none →
          (Store.listItemsRequest t true 9).1.sent
            = t.sent ++ [Store.listItemsKey t true])) :=
  ⟨by decide,
    C7_inflight_dedup demoAB true 7 8 9 (ListItemsResult.mk [itemC] none) (by decide)⟩

/-- C8: every public store operation — page fetch and merge, prefetch
append, the optimistic writes with their reconciliations and rollbacks,
event merges, deletes, and the bookkeeping operations — preserves the
invariant that the cached items list has at most one entry per id, provided
the initial list and every server page are id-distinct. -/
theorem C8_ids_nodup_invariant (s : StoreState) (op : StoreOp)
    (h1 : (s.items.map Item.id).Nodup) (h2 : opPageNodup op) :
    ((applyOp s op).items.map Item.id).Nodup := by
  cases op with
  | listComplete reset key res =>
    cases reset with
    | true => exact h2
    | false => exact Store.merge_nodup h1 h2
  | listRequest reset p =>
    show ((Store.listItemsRequest s reset p).1.items.map Item.id).Nodup
    rw [Store.listItemsRequest_items]
    exact h1
  | listFail key => exact h1
  | setFiltersOp patch p =>
    show ((Store.setFilters s patch p).1.items.map Item.id).Nodup
    rw [Store.setFilters_items]
    simp
  | subscribeOp => exact h1
  | createOp opId resp errId => exact Store.createItem_nodup opId resp errId h1
  | updateOp itemId changes opId resp errId =>
    exact Store.updateItem_nodup itemId changes opId resp errId h1
  | deleteOp itemId opId resp errId => exact Store.deleteItem_nodup itemId opId resp errId h1
  | eventOp a item => exact Store.onItemsEvent_nodup a item h1
  | checkOutOp itemId dueDate resp errId =>
    exact Store.optimisticOp_nodup itemId (Store.checkOutPatch dueDate) resp errId h1
  | markCheckedInOp itemId resp errId =>
    exact Store.optimisticOp_nodup itemId Store.checkedInPatch resp errId h1
  | adjustQuantityOp itemId delta resp errId =>
    exact Store.optimisticOp_nodup itemId (fun b => { b with quantity := b.quantity + delta })
      resp errId h1
  | setQuantityOp itemId q resp errId =>
    exact Store.optimisticOp_nodup itemId (fun b => { b with quantity := q }) resp errId h1
  | setLowStockThresholdOp itemId t resp errId =>
    exact Store.optimisticOp_nodup itemId (fun b => { b with low_stock_threshold := t })
      resp errId h1
  | moveItemOp itemId locId resp errId =>
    exact Store.optimisticOp_nodup itemId (fun b => { b with location_id := locId })
      resp errId h1
  | refreshItemOp resp errId => exact Store.refreshItem_nodup resp errId h1
  | dismissErrorOp id => exact h1

/-- C8 witness: the invariant theorem at a concrete state and a concrete
event merge. -/
theorem C8_witness :
    (demoAB.items.map Item.id).Nodup
    ∧ opPageNodup (StoreOp.eventOp ItemsAction.created itemC)
    ∧ ((applyOp demoAB (StoreOp.eventOp ItemsAction.created itemC)).items.map Item.id).Nodup :=
  ⟨by decide, trivial,
    C8_ids_nodup_invariant demoAB (StoreOp.eventOp ItemsAction.created itemC)
      (by decide) trivial⟩

/-- C9: the speculative patch of `Store.updateItem` has spread semantics —
after the synchronous prefix the cache entry for the target id is
`spreadUpdate b changes`, in which every field explicitly set to `null` in
the changes is cleared and every absent field keeps its previous value —
and a successful response overwrites the cache entry for the
server-returned id with exactly the server snapshot. -/
theorem C9_update_patch_and_reconcile
    (s : StoreState) (itemId : String) (changes : ItemUpdate) (opId errId : String)
    (b updated : Item)
    (h1 : (s.items.map Item.id).Nodup)
    (hfound : s.items.find? (fun i => i.id == itemId) = some b) :
    (Store.updateItemStart s itemId changes opId).items.find? (fun x => x.id == itemId)
        = some (Store.spreadUpdate b changes)
    ∧ (changes.name = none → (Store.spreadUpdate b changes).name = b.name)
    ∧ (changes.quantity = none → (Store.spreadUpdate b changes).quantity = b.quantity)
    ∧ (changes.checked_out = none →
        (Store.spreadUpdate b changes).checked_out = b.checked_out)
    ∧ (changes.description = none →
        (Store.spreadUpdate b changes).description = b.description)
    ∧ (changes.description = some none → (Store.spreadUpdate b changes).description = none)
    ∧ (changes.due_date = none → (Store.spreadUpdate b changes).due_date = b.due_date)
    ∧ (changes.due_date = some none → (Store.spreadUpdate b changes).due_date = none)
    ∧ (changes.location_id = none →
        (Store.spreadUpdate b changes).location_id = b.location_id)
    ∧ (changes.location_id = some none → (Store.spreadUpdate b changes).location_id = none)
    ∧ (changes.category = none → (Store.spreadUpdate b changes).category = b.category)
    ∧ (changes.category = some none → (Store.spreadUpdate b changes).category = none)
    ∧ (changes.low_stock_threshold = none →
        (Store.spreadUpdate b changes).low_stock_threshold = b.low_stock_threshold)
    ∧ (changes.low_stock_threshold = some none →
        (Store.spreadUpdate b changes).low_stock_threshold = none)
    ∧ (changes.tags = none → (Store.spreadUpdate b changes).tags = b.tags)
    ∧ (changes.tags = some none → (Store.spreadUpdate b changes).tags = none)
    ∧ (Store.updateItem s itemId changes opId (Except.ok updated) errId).items.find?
        (fun x => x.id == updated.id) = some updated := by
  have hbeq := @List.find?_some Item (fun i => i.id == itemId) b s.items hfound
  have hbid : b.id = itemId := eq_of_beq hbeq
  refine ⟨?_, ?_, ?_, ?_, ?_, ?_, ?_, ?_, ?_, ?_, ?_, ?_, ?_, ?_, ?_, ?_, ?_⟩
  · rw [Store.updateItemStart_items changes opId hfound, ← hbid]
    exact Store.upsert_find? (Store.spreadUpdate b changes) h1
  · intro hc; simp [Store.spreadUpdate, hc]
  · intro hc; simp [Store.spreadUpdate, hc]
  · intro hc; simp [Store.spreadUpdate, hc]
  · intro hc; simp [Store.spreadUpdate, hc]
  · intro hc; simp [Store.spreadUpdate, hc]
  · intro hc; simp [Store.spreadUpdate, hc]
  · intro hc; simp [Store.spreadUpdate, hc]
  · intro hc; simp [Store.spreadUpdate, hc]
  · intro hc; simp [Store.spreadUpdate, hc]
  · intro hc; simp [Store.spreadUpdate, hc]
  · intro hc; simp [Store.spreadUpdate, hc]
  · intro hc; simp [Store.spreadUpdate, hc]
  · intro hc; simp [Store.spreadUpdate, hc]
  · intro hc; simp [Store.spreadUpdate, hc]
  · intro hc; simp [Store.spreadUpdate, hc]
  · rw [Store.updateItem_ok_items changes opId updated errId hfound]
    exact Store.upsert_find? updated (Store.upsert_nodup _ h1)

/-- C9 witness: spread semantics at a concrete item, clearing the due date
with an explicit null and leaving the name absent, then reconciling with a
concrete server snapshot. -/
theorem C9_witness :
    (demoAB.items.map Item.id).Nodup
    ∧ demoAB.items.find? (fun i => i.id == "b") = some itemB
    ∧ ((Store.updateItemStart demoAB "b" (ItemUpdate.mk none none none none (some none) none
          none none none none none) "op").items.find? (fun x => x.id == "b")
        = some (Store.spreadUpdate itemB (ItemUpdate.mk none none none none (some none) none
            none none none none none))
      ∧ ((ItemUpdate.mk none none none none (some none) none none none none none
          none).name = none →
        (Store.spreadUpdate itemB (ItemUpdate.mk none none none none (some none) none none
          none none none none)).name = itemB.name)
      ∧ ((ItemUpdate.mk none none none none (some none) none none none none none
          none).quantity = none →
        (Store.spreadUpdate itemB (ItemUpdate.mk none none none none (some none) none none
          none none none none)).quantity = itemB.quantity)
      ∧ ((ItemUpdate.mk none none none none (some none) none none none none none
          none).checked_out = none →
        (Store.spreadUpdate itemB (ItemUpdate.mk none none none none (some none) none none
          none none none none)).checked_out = itemB.checked_out)
      ∧ ((ItemUpdate.mk none none none none (some none) none none none none none
          none).description = none →
        (Store.spreadUpdate itemB (ItemUpdate.mk none none none none (some none) none none
          none none none none)).description = itemB.description)
      ∧ ((ItemUpdate.mk none none none none (some none) none none none none none
          none).description = some none →
        (Store.spreadUpdate itemB (ItemUpdate.mk none none none none (some none) none none
          none none none none)).description = none)
      ∧ ((ItemUpdate.mk none none none none (some none) none none none none none
          none).due_date = none →
        (Store.spreadUpdate itemB (ItemUpdate.mk none none none none (some none) none none
          none none none none)).due_date = itemB.due_date)
      ∧ ((ItemUpdate.mk none none none none (some none) none none none none none
          none).due_date = some none →
        (Store.spreadUpdate itemB (ItemUpdate.mk none none none none (some none) none none
          none none none none)).due_date = none)
      ∧ ((ItemUpdate.mk none none none none (some none) none none none none none
          none).location_id = none →
        (Store.spreadUpdate itemB (ItemUpdate.mk none none none none (some none) none none
          none none none none)).location_id = itemB.location_id)
      ∧ ((ItemUpdate.mk none none none none (some none) none none none none none
          none).location_id = some none →
        (Store.spreadUpdate itemB (ItemUpdate.mk none none none none (some none) none none
          none none none none)).location_id = none)
      ∧ ((ItemUpdate.mk none none none none (some none) none none none none none
          none).category = none →
        (Store.spreadUpdate itemB (ItemUpdate.mk none none none none (some none) none none
          none none none none)).category = itemB.category)
      ∧ ((ItemUpdate.mk none none none none (some none) none none none none none
          none).category = some none →
        (Store.spreadUpdate itemB (ItemUpdate.mk none none none none (some none) none none
          none none none none)).category = none)
      ∧ ((ItemUpdate.mk none none none none (some none) none none none none none
          none).low_stock_threshold = none →
        (Store.spreadUpdate itemB (ItemUpdate.mk none none none none (some none) none none
          none none none none)).low_stock_threshold = itemB.low_stock_threshold)
      ∧ ((ItemUpdate.mk none none none none (some none) none none none none none
          none).low_stock_threshold = some none →
        (Store.spreadUpdate itemB (ItemUpdate.mk none none none none (some none) none none
          none none none none)).low_stock_threshold = none)
      ∧ ((ItemUpdate.mk none none none none (some none) none none none none none
          none).tags = none →
        (Store.spreadUpdate itemB (ItemUpdate.mk none none none none (some none) none none
          none none none none)).tags = itemB.tags)
      ∧ ((ItemUpdate.mk none none none none (some none) none none none none none
          none).tags = some none →
        (Store.spreadUpdate itemB (ItemUpdate.mk none none none none (some none) none none
          none none none none)).tags = none)
      ∧ (Store.updateItem demoAB "b" (ItemUpdate.mk none none none none (some none) none
          none none none none none) "op" (Except.ok itemC) "e1").items.find?
          (fun x => x.id == itemC.id) = some itemC) :=
  ⟨by decide, by decide,
    C9_update_patch_and_reconcile demoAB "b"
      (ItemUpdate.mk none none none none (some none) none none none none none none)
      "op" "e1" itemB itemC (by decide) (by decide)⟩

/-- C10: for a cached item, `checkOut` with an explicit `null` due date
speculatively sets `checked_out` and keeps the previous `due_date` (the
null does not clear it locally); `checkOut` with a string `d` sets
`due_date` to `d`; `markCheckedIn` clears `checked_out` and leaves
`due_date` unchanged. -/
theorem C10_checkout_due_date_semantics
    (s : StoreState) (itemId d : String) (b : Item)
    (h1 : (s.items.map Item.id).Nodup)
    (hfound : s.items.find? (fun i => i.id == itemId) = some b) :
    (Store.checkOutStart s itemId (some none)).items.find? (fun x => x.id == itemId)
        = some { b with checked_out := true }
    ∧ (Store.checkOutStart s itemId (some (some d))).items.find? (fun x => x.id == itemId)
        = some { b with checked_out := true, due_date := some d }
    ∧ (Store.markCheckedInStart s itemId).items.find? (fun x => x.id == itemId)
        = some { b with checked_out := false } := by
  have hbeq := @List.find?_some Item (fun i => i.id == itemId) b s.items hfound
  have hbid : b.id = itemId := eq_of_beq hbeq
  refine ⟨?_, ?_, ?_⟩
  · show (Store.optimisticOpStart s itemId (Store.checkOutPatch (some none))).items.find?
      (fun x => x.id == itemId) = some { b with checked_out := true }
    rw [Store.optimisticOpStart_items (Store.checkOutPatch (some none)) hfound, ← hbid]
    exact Store.upsert_find? (Store.checkOutPatch (some none) b) h1
  · show (Store.optimisticOpStart s itemId (Store.checkOutPatch (some (some d)))).items.find?
      (fun x => x.id == itemId) = some { b with checked_out := true, due_date := some d }
    rw [Store.optimisticOpStart_items (Store.checkOutPatch (some (some d))) hfound, ← hbid]
    exact Store.upsert_find? (Store.checkOutPatch (some (some d)) b) h1
  · show (Store.optimisticOpStart s itemId Store.checkedInPatch).items.find?
      (fun x => x.id == itemId) = some { b with checked_out := false }
    rw [Store.optimisticOpStart_items Store.checkedInPatch hfound, ← hbid]
    exact Store.upsert_find? (Store.checkedInPatch b) h1

/-- C10 witness: the check-out semantics at a concrete cached item that
already carries a due date. -/
theorem C10_witness :
    (demoAB.items.map Item.id).Nodup
    ∧ demoAB.items.find? (fun i => i.id == "b") = some itemB
    ∧ ((Store.checkOutStart demoAB "b" (some none)).items.find? (fun x => x.id == "b")
        = some { itemB with checked_out := true }
      ∧ (Store.checkOutStart demoAB "b" (some (some "2027-05-05"))).items.find?
          (fun x => x.id == "b")
        = some { itemB with checked_out := true, due_date := some "2027-05-05" }
      ∧ (Store.markCheckedInStart demoAB "b").items.find? (fun x => x.id == "b")
        = some { itemB with checked_out := false }) :=
  ⟨by decide, by decide,
    C10_checkout_due_date_semantics demoAB "b" "2027-05-05" itemB (by decide) (by decide)⟩

end HAV
